import Mathlib

/-!
Verification of the keytab codec and the `keytab_file` resource Create logic
of the terraform-provider-keytab repository.

The `Create` implementation of the repository (internal/provider/file_resource.go)
delegates the binary keytab encoding to the external gokrb5 keytab package
(`keytab.New` / `AddEntry` / `Marshal` / `Unmarshal`), whose source is not part
of the repository.  The codec definitions below are therefore modelled from the
description of the wire format given by the specification (spec §4.1/§4.2), while the
`create` function is a direct shallow embedding of the Go `Create` method.

Bytes are modelled as `List Nat` with each element intended to be `< 256`;
multi-byte integers are big-endian; fallible operations return `Except`.
-/

namespace Keytab

/-- A byte string, modelled as a list of naturals (each intended `< 256`). -/
abbrev Bytes := List Nat

/-- Modelled from the spec: the KeytabEntry data model (spec §3).  The gokrb5
entry type itself is not in the repository.  `components` is the sequence of
principal name components (byte strings), `realm` and `key` are raw byte
strings, `keyVersion` is the integer version (0–255 for this system),
`encryptionType` the 16-bit wire tag, and `timestamp` the Unix time in
seconds (written as a 32-bit signed integer on the wire). -/
structure KeytabEntry where
  components : List Bytes
  realm : Bytes
  key : Bytes
  keyVersion : Nat
  encryptionType : Nat
  timestamp : Int
  deriving Repr, DecidableEq

/-- Big-endian 2-byte encoding of a natural (low 16 bits). -/
def u16be (n : Nat) : Bytes := [n / 256 % 256, n % 256]

/-- Big-endian 4-byte encoding of a natural (low 32 bits). -/
def u32be (n : Nat) : Bytes :=
  [n / 2 ^ 24 % 256, n / 2 ^ 16 % 256, n / 2 ^ 8 % 256, n % 256]

/-- Big-endian 4-byte twos-complement encoding of a signed 32-bit integer. -/
def i32be (t : Int) : Bytes := u32be (t % 2 ^ 32).toNat

/-- A 16-bit length-prefixed byte string (spec §4.1: length then raw bytes,
no null terminator). -/
def lenPrefixed (s : Bytes) : Bytes := u16be s.length ++ s

/-- Modelled from the spec: the record body of one keytab entry (spec §4.1
step 2): component count, realm, name components, timestamp, 8-bit key
version, encryption type tag, length-prefixed key, and the 32-bit widened
key version. -/
def entryBody (e : KeytabEntry) : Bytes :=
  u16be e.components.length
    ++ lenPrefixed e.realm
    ++ e.components.foldr (fun c acc => lenPrefixed c ++ acc) []
    ++ i32be e.timestamp
    ++ [e.keyVersion % 256]
    ++ u16be e.encryptionType
    ++ lenPrefixed e.key
    ++ u32be (e.keyVersion % 256)

/-- Modelled from the spec: one record on the wire, the 4-byte signed length
prefix followed by the record body (spec §4.1 step 2). -/
def encodeRecord (e : KeytabEntry) : Bytes :=
  u32be (entryBody e).length ++ entryBody e

/-- Modelled from the spec (§4.1 / §7): the encode-side error, raised when a
field exceeds its fixed-width wire representation, with the entry index and
field name as context. -/
structure EncodingOverflowError where
  entryIndex : Nat
  fieldName : String
  deriving Repr, DecidableEq

/-- Modelled from the spec (§4.1 error conditions): guard that every
length-prefixed field of an entry fits its 16-bit length encoding and that the
record length is representable as a positive signed 32-bit value. -/
def checkEntry (i : Nat) (e : KeytabEntry) : Except EncodingOverflowError Unit :=
  if 65535 < e.components.length then .error ⟨i, "component count"⟩
  else if 65535 < e.realm.length then .error ⟨i, "realm"⟩
  else if e.components.any (fun c => 65535 < c.length) then .error ⟨i, "principal"⟩
  else if 65535 < e.key.length then .error ⟨i, "key"⟩
  else if 2 ^ 31 - 1 < (entryBody e).length then .error ⟨i, "record length"⟩
  else .ok ()

/-- The pure concatenation of all record encodings (used to state what a
successful encode returns). -/
def encodeRecordsPure (es : List KeytabEntry) : Bytes :=
  es.foldr (fun e acc => encodeRecord e ++ acc) []

/-- Modelled from the spec: encode all records, failing with the first
overflow error; `i` is the index of the first entry. -/
def encodeRecordsGo : Nat → List KeytabEntry → Except EncodingOverflowError Bytes
  | _, [] => .ok []
  | i, e :: es => do
      let _ ← checkEntry i e
      let rest ← encodeRecordsGo (i + 1) es
      .ok (encodeRecord e ++ rest)

/-- Modelled from the spec: Encode (spec §4.1): the 2-byte file header
`0x05 0x02` followed by the records, all-or-nothing. -/
def encodeKeytab (es : List KeytabEntry) : Except EncodingOverflowError Bytes :=
  (encodeRecordsGo 0 es).map (fun bs => 5 :: 2 :: bs)

/-- Modelled from the spec (§7): the decode-side error for malformed or
unsupported input. -/
inductive FormatError where
  | truncated
  | unsupportedVersion
  | inconsistentRecordLength
  deriving Repr, DecidableEq

/-- Read one byte off the front of the input. -/
def readU8 : Bytes → Except FormatError (Nat × Bytes)
  | [] => .error .truncated
  | b :: rest => .ok (b, rest)

/-- Read a big-endian 2-byte integer off the front of the input. -/
def readU16 : Bytes → Except FormatError (Nat × Bytes)
  | b0 :: b1 :: rest => .ok (b0 * 256 + b1, rest)
  | _ => .error .truncated

/-- Read a big-endian 4-byte integer off the front of the input. -/
def readU32 : Bytes → Except FormatError (Nat × Bytes)
  | b0 :: b1 :: b2 :: b3 :: rest =>
      .ok (((b0 * 256 + b1) * 256 + b2) * 256 + b3, rest)
  | _ => .error .truncated

/-- Read exactly `n` raw bytes off the front of the input. -/
def readBytes (n : Nat) (bs : Bytes) : Except FormatError (Bytes × Bytes) :=
  if bs.length < n then .error .truncated else .ok (bs.take n, bs.drop n)

/-- Read a 16-bit length-prefixed byte string off the front of the input. -/
def readData (bs : Bytes) : Except FormatError (Bytes × Bytes) := do
  let (n, rest) ← readU16 bs
  readBytes n rest

/-- Read `n` length-prefixed name components off the front of the input. -/
def readComponents : Nat → Bytes → Except FormatError (List Bytes × Bytes)
  | 0, bs => .ok ([], bs)
  | n + 1, bs => do
      let (c, rest) ← readData bs
      let (cs, rest2) ← readComponents n rest
      .ok (c :: cs, rest2)

/-- Reinterpret an unsigned 32-bit value as a signed 32-bit integer. -/
def toSigned32 (n : Nat) : Int :=
  if n < 2 ^ 31 then (n : Int) else (n : Int) - 2 ^ 32

/-- Modelled from the spec: parse one record body (the inverse of
`entryBody`); the body must be consumed exactly, otherwise the length prefix
was inconsistent with the fields (spec §7). -/
def parseRecordBody (bs : Bytes) : Except FormatError KeytabEntry := do
  let (count, r1) ← readU16 bs
  let (realm, r2) ← readData r1
  let (comps, r3) ← readComponents count r2
  let (ts, r4) ← readU32 r3
  let (_, r5) ← readU8 r4
  let (etype, r6) ← readU16 r5
  let (key, r7) ← readData r6
  let (kv32, r8) ← readU32 r7
  if r8.isEmpty then
    .ok ⟨comps, realm, key, kv32, etype, toSigned32 ts⟩
  else
    .error .inconsistentRecordLength

/-- Modelled from the spec: read records until the input is exhausted
(spec §4.2): a non-negative length prefix frames a record body, a negative
prefix `-N` skips `N` bytes without producing an entry, and a prefix that
exceeds the remaining input is a truncation error.  The fuel argument is the
recursion bound; callers pass the byte count, which every step strictly
consumes at least one of. -/
def decodeRecords : Nat → Bytes → Except FormatError (List KeytabEntry)
  | _, [] => .ok []
  | 0, _ :: _ => .error .truncated
  | fuel + 1, b :: rest0 => do
      let (n32, rest) ← readU32 (b :: rest0)
      if n32 < 2 ^ 31 then do
        let (body, rest2) ← readBytes n32 rest
        let e ← parseRecordBody body
        let es ← decodeRecords fuel rest2
        .ok (e :: es)
      else do
        let (_, rest2) ← readBytes (2 ^ 32 - n32) rest
        decodeRecords fuel rest2

/-- Modelled from the spec: Decode (spec §4.2): validate the 2-byte header
`0x05 0x02`, then read records until the input is exhausted. -/
def decodeKeytab : Bytes → Except FormatError (List KeytabEntry)
  | b0 :: b1 :: rest =>
      if b0 = 5 ∧ b1 = 2 then decodeRecords rest.length rest
      else .error .unsupportedVersion
  | _ => .error .truncated

/-- An entry whose fields all fit their wire representations (spec §4.1 error
conditions plus the signed 32-bit timestamp range of spec §3). -/
def validEntry (e : KeytabEntry) : Bool :=
  e.components.length ≤ 65535
    && e.realm.length ≤ 65535
    && e.components.all (fun c => c.length ≤ 65535)
    && e.key.length ≤ 65535
    && e.keyVersion ≤ 255
    && e.encryptionType ≤ 65535
    && (entryBody e).length ≤ 2 ^ 31 - 1
    && decide (-(2 ^ 31 : Int) ≤ e.timestamp)
    && decide (e.timestamp < 2 ^ 31)

/-- All entries of a list are valid. -/
def validEntries (es : List KeytabEntry) : Bool := es.all validEntry

/-- The RC4-HMAC encryption type wire tag (etypeID.RC4_HMAC = 23). -/
def RC4_HMAC : Nat := 23

/-- The AES128-CTS-HMAC-SHA1-96 encryption type wire tag (etypeID value 17). -/
def AES128_CTS_HMAC_SHA1_96 : Nat := 17

/-! ### SHA-256 (FIPS 180-4), as computed by `crypto/sha256.Sum256`, and
standard base64 (`encoding/base64.StdEncoding`) and lowercase hex
(`fmt.Sprintf`), the three Go standard-library functions `Create` applies to
the marshalled keytab bytes. -/

/-- Lowercase hexadecimal digit. -/
def hexDigit (n : Nat) : Char :=
  if n < 10 then Char.ofNat (48 + n) else Char.ofNat (87 + n)

/-- Lowercase hexadecimal rendering of a byte string (Go `fmt.Sprintf`
with the `%x` verb). -/
def hexLower (bs : Bytes) : String :=
  String.mk (bs.foldr (fun b acc => hexDigit (b / 16) :: hexDigit (b % 16) :: acc) [])

/-- The standard base64 alphabet. -/
def base64Chars : List Char :=
  (List.range 26).map (fun i => Char.ofNat (65 + i)) ++
    ((List.range 26).map (fun i => Char.ofNat (97 + i)) ++
      ((List.range 10).map (fun i => Char.ofNat (48 + i)) ++ ['+', '/']))

/-- The base64 character for a 6-bit value. -/
def b64char (n : Nat) : Char := base64Chars.getD n 'A'

/-- Standard base64 encoding with `=` padding (Go
`base64.StdEncoding.EncodeToString`). -/
def base64Encode : Bytes → List Char
  | [] => []
  | [b0] => [b64char (b0 / 4), b64char (b0 % 4 * 16), '=', '=']
  | [b0, b1] =>
      [b64char (b0 / 4), b64char (b0 % 4 * 16 + b1 / 16), b64char (b1 % 16 * 4), '=']
  | b0 :: b1 :: b2 :: rest =>
      b64char (b0 / 4) :: b64char (b0 % 4 * 16 + b1 / 16) ::
        b64char (b1 % 16 * 4 + b2 / 64) :: b64char (b2 % 64) :: base64Encode rest

/-- Standard base64 encoding of a byte string, as a string. -/
def base64String (bs : Bytes) : String := String.mk (base64Encode bs)

/-- Right rotation of a 32-bit word. -/
def wrotr (n x : Nat) : Nat := x / 2 ^ n + x % 2 ^ n * 2 ^ (32 - n)

/-- SHA-256 big sigma-0. -/
def bigSigma0 (x : Nat) : Nat := wrotr 2 x ^^^ wrotr 13 x ^^^ wrotr 22 x

/-- SHA-256 big sigma-1. -/
def bigSigma1 (x : Nat) : Nat := wrotr 6 x ^^^ wrotr 11 x ^^^ wrotr 25 x

/-- SHA-256 small sigma-0. -/
def smallSigma0 (x : Nat) : Nat := wrotr 7 x ^^^ wrotr 18 x ^^^ x / 2 ^ 3

/-- SHA-256 small sigma-1. -/
def smallSigma1 (x : Nat) : Nat := wrotr 17 x ^^^ wrotr 19 x ^^^ x / 2 ^ 10

/-- SHA-256 choice function. -/
def chF (e f g : Nat) : Nat := (e &&& f) ^^^ ((e ^^^ 4294967295) &&& g)

/-- SHA-256 majority function. -/
def majF (a b c : Nat) : Nat := (a &&& b) ^^^ (a &&& c) ^^^ (b &&& c)

/-- The SHA-256 round constants. -/
def sha256K : List Nat :=
  [1116352408, 1899447441, 3049323471, 3921009573, 961987163,
   1508970993, 2453635748, 2870763221, 3624381080, 310598401,
   607225278, 1426881987, 1925078388, 2162078206, 2614888103,
   3248222580, 3835390401, 4022224774, 264347078, 604807628,
   770255983, 1249150122, 1555081692, 1996064986, 2554220882,
   2821834349, 2952996808, 3210313671, 3336571891, 3584528711,
   113926993, 338241895, 666307205, 773529912, 1294757372,
   1396182291, 1695183700, 1986661051, 2177026350, 2456956037,
   2730485921, 2820302411, 3259730800, 3345764771, 3516065817,
   3600352804, 4094571909, 275423344, 430227734, 506948616,
   659060556, 883997877, 958139571, 1322822218, 1537002063,
   1747873779, 1955562222, 2024104815, 2227730452, 2361852424,
   2428436474, 2756734187, 3204031479, 3329325298]

/-- The SHA-256 initial hash values. -/
def sha256H0 : List Nat :=
  [1779033703, 3144134277, 1013904242, 2773480762,
   1359893119, 2600822924, 528734635, 1541459225]

/-- The eight SHA-256 working variables. -/
structure Sha256State where
  a : Nat
  b : Nat
  c : Nat
  d : Nat
  e : Nat
  f : Nat
  g : Nat
  h : Nat
  deriving Repr, DecidableEq

/-- One SHA-256 compression round. -/
def sha256Round (s : Sha256State) (k w : Nat) : Sha256State :=
  let t1 := (s.h + bigSigma1 s.e + chF s.e s.f s.g + k + w) % 2 ^ 32
  let t2 := (bigSigma0 s.a + majF s.a s.b s.c) % 2 ^ 32
  ⟨(t1 + t2) % 2 ^ 32, s.a, s.b, s.c, (s.d + t1) % 2 ^ 32, s.e, s.f, s.g⟩

/-- Run the 64 SHA-256 rounds, consuming the round constants and the message
schedule in lockstep. -/
def sha256Rounds : List Nat → List Nat → Sha256State → Sha256State
  | k :: ks, w :: ws, s => sha256Rounds ks ws (sha256Round s k w)
  | _, _, s => s

/-- Split a byte string into big-endian 32-bit words. -/
def bytesToWords : Bytes → List Nat
  | b0 :: b1 :: b2 :: b3 :: rest =>
      (((b0 * 256 + b1) * 256 + b2) * 256 + b3) :: bytesToWords rest
  | _ => []

/-- Extend the 16 message-schedule words to 64, appending one word per step. -/
def sha256Extend : Nat → List Nat → List Nat
  | 0, w => w
  | k + 1, w =>
      let i := w.length
      let wt := (smallSigma1 (w.getD (i - 2) 0) + w.getD (i - 7) 0 +
                 smallSigma0 (w.getD (i - 15) 0) + w.getD (i - 16) 0) % 2 ^ 32
      sha256Extend k (w ++ [wt])

/-- Compress one 64-byte block into the running hash values. -/
def sha256Compress (hs : List Nat) (block : Bytes) : List Nat :=
  let w := sha256Extend 48 (bytesToWords block)
  let s0 : Sha256State := ⟨hs.getD 0 0, hs.getD 1 0, hs.getD 2 0, hs.getD 3 0,
    hs.getD 4 0, hs.getD 5 0, hs.getD 6 0, hs.getD 7 0⟩
  let s := sha256Rounds sha256K w s0
  [(hs.getD 0 0 + s.a) % 2 ^ 32, (hs.getD 1 0 + s.b) % 2 ^ 32,
   (hs.getD 2 0 + s.c) % 2 ^ 32, (hs.getD 3 0 + s.d) % 2 ^ 32,
   (hs.getD 4 0 + s.e) % 2 ^ 32, (hs.getD 5 0 + s.f) % 2 ^ 32,
   (hs.getD 6 0 + s.g) % 2 ^ 32, (hs.getD 7 0 + s.h) % 2 ^ 32]

/-- Fold the compression function over the 64-byte blocks of the padded
message; the fuel is the byte count, of which each block consumes 64. -/
def sha256Blocks : Nat → List Nat → Bytes → List Nat
  | _, hs, [] => hs
  | 0, hs, _ :: _ => hs
  | fuel + 1, hs, bs => sha256Blocks fuel (sha256Compress hs (bs.take 64)) (bs.drop 64)

/-- Big-endian 8-byte encoding of a natural (low 64 bits). -/
def u64be (n : Nat) : Bytes :=
  [n / 2 ^ 56 % 256, n / 2 ^ 48 % 256, n / 2 ^ 40 % 256, n / 2 ^ 32 % 256,
   n / 2 ^ 24 % 256, n / 2 ^ 16 % 256, n / 2 ^ 8 % 256, n % 256]

/-- SHA-256 message padding: a `0x80` byte, zeros to 56 mod 64, and the
big-endian 64-bit bit length. -/
def sha256Pad (msg : Bytes) : Bytes :=
  msg ++ 128 :: (List.replicate ((119 - msg.length % 64) % 64) 0 ++ u64be (8 * msg.length))

/-- Render 32-bit words as big-endian bytes. -/
def wordsToBytes : List Nat → Bytes
  | [] => []
  | w :: ws => w / 2 ^ 24 % 256 :: (w / 2 ^ 16 % 256 :: (w / 2 ^ 8 % 256 ::
      (w % 256 :: wordsToBytes ws)))

/-- The SHA-256 digest of a byte string (Go `crypto/sha256.Sum256`). -/
def sha256 (msg : Bytes) : Bytes :=
  let padded := sha256Pad msg
  wordsToBytes (sha256Blocks padded.length sha256H0 padded)

/-! ### Shallow embedding of the `keytab_file` resource `Create` method
(internal/provider/file_resource.go).  The Terraform plumbing (plan reading,
diagnostics, state storage) is represented explicitly: a plan that failed to
read is an `Except.error`, diagnostics are a list of error strings, and the
saved state is an `Option`.  The external collaborators are parameters:
`mkEntry` models gokrb5 `keytab.AddEntry` (including its password-to-key
derivation, which is outside the scope of the codec), `parseTime` and `formatTime`
model RFC3339 `time.Parse` / `time.Time.Format`, and `now` is the single
`time.Now()` value the method captures before its entry loop. -/

/-- The `entry` block attributes (Go `FileEntryModel`); `timestamp = none`
models an unknown (not yet computed) timestamp attribute. -/
structure FileEntryModel where
  principal : String
  realm : String
  key : String
  keyVersion : Nat
  encryptionType : String
  timestamp : Option String
  deriving Repr, DecidableEq

/-- The resource model (Go `FileResourceModel`); the computed attributes are
`none` until `Create` fills them. -/
structure FileResourceModel where
  entries : List FileEntryModel
  contentBase64 : Option String
  id : Option String
  deriving Repr, DecidableEq

/-- The outcome of a `Create` call: the error diagnostics added to the
response and the state saved into it (`none` when `Create` returned before
`resp.State.Set`). -/
structure CreateResponse where
  errors : List String
  state : Option FileResourceModel
  deriving Repr, DecidableEq

/-- The type of the `keytab.AddEntry` collaborator: principal, realm, key
string, timestamp, key version, encryption type name, producing a keytab
entry or an error. -/
abbrev MkEntry := String → String → String → Int → Nat → String → Except String KeytabEntry

/-- The per-entry loop of `Create` (file_resource.go lines 149–169): resolve
the timestamp of each entry (an unknown timestamp becomes `now`, written back into
the attribute formatted by `formatTime`), then add the entry; the first error
aborts the loop. -/
def processEntries (mkEntry : MkEntry) (parseTime : String → Except String Int)
    (formatTime : Int → String) (now : Int) :
    List FileEntryModel → Except String (List FileEntryModel × List KeytabEntry)
  | [] => .ok ([], [])
  | e :: es => do
      let (t, e2) ← match e.timestamp with
        | none => Except.ok (now, { e with timestamp := some (formatTime now) })
        | some s => (parseTime s).map (fun t => (t, e))
      let ke ← mkEntry e.principal e.realm e.key t e.keyVersion e.encryptionType
      let (es2, kes) ← processEntries mkEntry parseTime formatTime now es
      .ok (e2 :: es2, ke :: kes)

/-- Shallow embedding of `Create` (file_resource.go lines 135–189): read the
plan, process the entries, marshal the keytab, then set `content_base64` to
the base64 of the bytes and `id` to the lowercase hex SHA-256 of the bytes;
any failure returns an error diagnostic without saving state. -/
def create (mkEntry : MkEntry) (parseTime : String → Except String Int)
    (formatTime : Int → String) (now : Int)
    (plan : Except String FileResourceModel) : CreateResponse :=
  match plan with
  | .error d => ⟨[d], none⟩
  | .ok data =>
    match processEntries mkEntry parseTime formatTime now data.entries with
    | .error d => ⟨[d], none⟩
    | .ok (entries2, ktEntries) =>
      match encodeKeytab ktEntries with
      | .error _ => ⟨["Unable to generate keytab"], none⟩
      | .ok bs =>
        ⟨[], some { entries := entries2,
                    contentBase64 := some (base64String bs),
                    id := some (hexLower (sha256 bs)) }⟩

/-! ### Concrete fixtures used by the golden-vector claim and the witnesses. -/

/-- The golden-vector fixture entry exactly as the claim states it: principal
`"principal"`, realm `"realm.com"`, key the raw bytes of `"key"`, key version
0, RC4-HMAC, timestamp 1970-01-01T00:00:00Z (Unix time 0). -/
def c1Entry : KeytabEntry :=
  ⟨[[112, 114, 105, 110, 99, 105, 112, 97, 108]],
   [114, 101, 97, 108, 109, 46, 99, 111, 109],
   [107, 101, 121], 0, RC4_HMAC, 0⟩

/-- The same fixture entry with the 16 derived RC4-HMAC key bytes that the
golden vector of the spec itself carries in its key field (the codec receives keys
pre-derived; derivation is outside its scope). -/
def c1EntryDerived : KeytabEntry :=
  ⟨[[112, 114, 105, 110, 99, 105, 112, 97, 108]],
   [114, 101, 97, 108, 109, 46, 99, 111, 109],
   [49, 214, 207, 224, 209, 106, 233, 49, 183, 60, 89, 215, 224, 192, 137, 192],
   0, RC4_HMAC, 0⟩

/-- The byte sequence whose standard base64 encoding is the golden vector
given by the claim (63 bytes; its record body is 57 bytes long and contains a
4-byte principal name-type field, value 1, between the name components and
the timestamp). -/
def c1GoldenBytes : Bytes :=
  [5, 2, 0, 0, 0, 57, 0, 1, 0, 9, 114, 101, 97, 108, 109, 46, 99, 111, 109,
   0, 9, 112, 114, 105, 110, 99, 105, 112, 97, 108, 0, 0, 0, 1, 0, 0, 0, 0,
   0, 0, 23, 0, 16, 49, 214, 207, 224, 209, 106, 233, 49, 183, 60, 89, 215,
   224, 192, 137, 192, 0, 0, 0, 0]

/-- The encoding of the derived-key fixture entry under the spec §4.1 wire
layout (59 bytes; record body 53 bytes, no name-type field). -/
def c1LayoutBytes : Bytes :=
  [5, 2, 0, 0, 0, 53, 0, 1, 0, 9, 114, 101, 97, 108, 109, 46, 99, 111, 109,
   0, 9, 112, 114, 105, 110, 99, 105, 112, 97, 108, 0, 0, 0, 0, 0, 0, 23, 0,
   16, 49, 214, 207, 224, 209, 106, 233, 49, 183, 60, 89, 215, 224, 192, 137,
   192, 0, 0, 0, 0]

/-- A fixture entry whose 3-byte key matches the expected key length of no
encryption type, with an arbitrary 16-bit type tag. -/
def c4Entry : KeytabEntry := ⟨[[112]], [114], [1, 2, 3], 7, 9999, 5⟩

/-- A concrete `keytab.AddEntry` collaborator for the Create witnesses: it
derives nothing and records the timestamp and key version it was given. -/
def wMkEntry : MkEntry := fun _ _ _ t kv _ => .ok ⟨[[1]], [2], [3], kv, 23, t⟩

/-- A concrete RFC3339-parser stand-in for the Create witnesses. -/
def wParseTime : String → Except String Int := fun _ => .ok 0

/-- A concrete RFC3339-formatter stand-in for the Create witnesses. -/
def wFormatTime : Int → String := fun _ => "1970-01-01T00:00:42Z"

/-- A plan entry with an unknown timestamp, for the Create witnesses. -/
def wPlanEntry : FileEntryModel := ⟨"p", "r", "k", 0, "rc4-hmac", none⟩

/-- The planned resource model for the Create witnesses. -/
def wPlanModel : FileResourceModel := ⟨[wPlanEntry], none, none⟩

/-- The keytab bytes the witness plan marshals to. -/
def wKtBytes : Bytes :=
  [5, 2, 0, 0, 0, 22, 0, 1, 0, 1, 2, 0, 1, 1, 0, 0, 0, 42, 0, 0, 23, 0, 1, 3,
   0, 0, 0, 0]

/-- The state the witness Create call saves. -/
def wCreateState : FileResourceModel :=
  ⟨[⟨"p", "r", "k", 0, "rc4-hmac", some (wFormatTime 42)⟩],
   some (base64String wKtBytes), some (hexLower (sha256 wKtBytes))⟩

/-! ### Reader lemmas: each reader consumes exactly the bytes its writer
produced, leaving the tail untouched. -/

theorem exceptBind_ok {ε α β : Type} (a : α) (f : α → Except ε β) :
    (Except.ok (ε := ε) a >>= f) = f a := rfl

theorem exceptBind_error {ε α β : Type} (err : ε) (f : α → Except ε β) :
    (Except.error (α := α) err >>= f : Except ε β) = .error err := rfl

theorem exceptBind_as_map {ε α β : Type} (x : Except ε α) (f : α → β) :
    (x >>= fun a => Except.ok (f a)) = x.map f := by
  cases x <;> rfl

theorem readU16_u16be (n : Nat) (rest : Bytes) (h : n ≤ 65535) :
    readU16 (u16be n ++ rest) = .ok (n, rest) := by
  have hn : n / 256 % 256 * 256 + n % 256 = n := by omega
  simp [u16be, readU16, hn]

theorem readU32_u32be (n : Nat) (rest : Bytes) (h : n < 2 ^ 32) :
    readU32 (u32be n ++ rest) = .ok (n, rest) := by
  simp only [u32be, List.cons_append, List.nil_append, readU32, Except.ok.injEq,
    Prod.mk.injEq, and_true]
  omega

theorem readU32_u32be_nil (n : Nat) (h : n < 2 ^ 32) :
    readU32 (u32be n) = .ok (n, []) := by
  simpa using readU32_u32be n [] h

theorem readBytes_exact (s rest : Bytes) :
    readBytes s.length (s ++ rest) = .ok (s, rest) := by
  simp [readBytes, List.take_left, List.drop_left]

theorem readData_lenPrefixed (s rest : Bytes) (h : s.length ≤ 65535) :
    readData (lenPrefixed s ++ rest) = .ok (s, rest) := by
  simp only [readData, lenPrefixed, List.append_assoc]
  rw [readU16_u16be _ _ h, exceptBind_ok]
  exact readBytes_exact s rest

theorem readComponents_encoded (cs : List Bytes) (rest : Bytes)
    (h : ∀ c ∈ cs, c.length ≤ 65535) :
    readComponents cs.length (cs.foldr (fun c acc => lenPrefixed c ++ acc) [] ++ rest) =
      .ok (cs, rest) := by
  induction cs with
  | nil => simp [readComponents]
  | cons c cs ih =>
      have hc : c.length ≤ 65535 := h c (List.mem_cons_self c cs)
      have hcs : ∀ x ∈ cs, x.length ≤ 65535 := fun x hx => h x (List.mem_cons_of_mem c hx)
      simp only [List.foldr_cons, List.length_cons, List.append_assoc]
      show readComponents (cs.length + 1) _ = _
      simp only [readComponents]
      rw [readData_lenPrefixed _ _ hc, exceptBind_ok, ih hcs, exceptBind_ok]

theorem toSigned32_wire (t : Int) (h1 : -(2 ^ 31) ≤ t) (h2 : t < 2 ^ 31) :
    toSigned32 (t % 2 ^ 32).toNat = t := by
  have hp : ((2 : Int) ^ 32) = 4294967296 := by norm_num
  have hq : ((2 : Int) ^ 31) = 2147483648 := by norm_num
  have hqn : ((2 : Nat) ^ 31) = 2147483648 := by norm_num
  rw [hq] at h2
  rw [hq] at h1
  unfold toSigned32
  rw [hp, hqn]
  split <;> omega

theorem readU32_i32be (t : Int) (rest : Bytes) :
    readU32 (i32be t ++ rest) = .ok ((t % 2 ^ 32).toNat, rest) := by
  have hp : ((2 : Int) ^ 32) = 4294967296 := by norm_num
  have h : (t % 2 ^ 32).toNat < 2 ^ 32 := by
    rw [hp]
    omega
  exact readU32_u32be _ _ h

/-- Unfolded view of `validEntry`. -/
theorem validEntry_iff (e : KeytabEntry) :
    validEntry e = true ↔
      e.components.length ≤ 65535 ∧ e.realm.length ≤ 65535 ∧
      (∀ c ∈ e.components, c.length ≤ 65535) ∧ e.key.length ≤ 65535 ∧
      e.keyVersion ≤ 255 ∧ e.encryptionType ≤ 65535 ∧
      (entryBody e).length ≤ 2 ^ 31 - 1 ∧
      -(2 ^ 31 : Int) ≤ e.timestamp ∧ e.timestamp < 2 ^ 31 := by
  simp [validEntry, List.all_eq_true, and_assoc]

theorem parseRecordBody_entryBody (e : KeytabEntry) (h : validEntry e = true) :
    parseRecordBody (entryBody e) = .ok e := by
  obtain ⟨h1, h2, h3, h4, h5, h6, h7, h8, h9⟩ := (validEntry_iff e).mp h
  have hkv : e.keyVersion % 256 = e.keyVersion := Nat.mod_eq_of_lt (by omega)
  have hkv2 : e.keyVersion < 2 ^ 32 := by omega
  have hu16a : ∀ rest : Bytes, readU16 (u16be e.components.length ++ rest) =
      .ok (e.components.length, rest) := fun rest => readU16_u16be _ rest h1
  have hu16b : ∀ rest : Bytes, readU16 (u16be e.encryptionType ++ rest) =
      .ok (e.encryptionType, rest) := fun rest => readU16_u16be _ rest h6
  have hrealm : ∀ rest : Bytes, readData (lenPrefixed e.realm ++ rest) =
      .ok (e.realm, rest) := fun rest => readData_lenPrefixed _ rest h2
  have hkey : ∀ rest : Bytes, readData (lenPrefixed e.key ++ rest) =
      .ok (e.key, rest) := fun rest => readData_lenPrefixed _ rest h4
  have hcomps : ∀ rest : Bytes, readComponents e.components.length
      (e.components.foldr (fun c acc => lenPrefixed c ++ acc) [] ++ rest) =
      .ok (e.components, rest) := fun rest => readComponents_encoded _ rest h3
  have hlast : readU32 (u32be e.keyVersion) = .ok (e.keyVersion, []) :=
    readU32_u32be_nil _ hkv2
  have hsigned : toSigned32 (e.timestamp % 2 ^ 32).toNat = e.timestamp :=
    toSigned32_wire _ h8 h9
  simp only [parseRecordBody, entryBody, List.append_assoc, List.cons_append,
    List.nil_append, hkv, hu16a, exceptBind_ok, hrealm, hcomps, readU32_i32be,
    readU8, hu16b, hkey, hlast, hsigned, List.isEmpty_nil, if_true]

/-! ### Record-level decode lemmas. -/

theorem decodeRecords_nil (f : Nat) : decodeRecords f [] = .ok [] := by
  cases f <;> rfl

theorem decodeRecords_cons (f : Nat) (b : Nat) (rest0 : Bytes) :
    decodeRecords (f + 1) (b :: rest0) =
      (do
        let (n32, rest) ← readU32 (b :: rest0)
        if n32 < 2 ^ 31 then do
          let (body, rest2) ← readBytes n32 rest
          let e ← parseRecordBody body
          let es ← decodeRecords f rest2
          Except.ok (e :: es)
        else do
          let (_, rest2) ← readBytes (2 ^ 32 - n32) rest
          decodeRecords f rest2) := rfl

theorem decodeRecords_u32be (f n : Nat) (tail : Bytes) (hn : n < 2 ^ 32) :
    decodeRecords (f + 1) (u32be n ++ tail) =
      (if n < 2 ^ 31 then do
        let (body, rest2) ← readBytes n tail
        let e ← parseRecordBody body
        let es ← decodeRecords f rest2
        Except.ok (e :: es)
      else do
        let (_, rest2) ← readBytes (2 ^ 32 - n) tail
        decodeRecords f rest2) := by
  have hcons : u32be n ++ tail =
      n / 2 ^ 24 % 256 :: (n / 2 ^ 16 % 256 :: (n / 2 ^ 8 % 256 :: (n % 256 :: tail))) := by
    simp [u32be]
  have hr : readU32 (u32be n ++ tail) = .ok (n, tail) := readU32_u32be n tail hn
  rw [hcons] at hr
  rw [hcons, decodeRecords_cons, hr, exceptBind_ok]

theorem decodeRecords_record (f : Nat) (e : KeytabEntry) (rest : Bytes)
    (h : validEntry e = true) :
    decodeRecords (f + 1) (encodeRecord e ++ rest) =
      (decodeRecords f rest).map (fun es => e :: es) := by
  have h7 : (entryBody e).length ≤ 2 ^ 31 - 1 := ((validEntry_iff e).mp h).2.2.2.2.2.2.1
  rw [encodeRecord, List.append_assoc,
    decodeRecords_u32be f (entryBody e).length (entryBody e ++ rest) (by omega),
    if_pos (by omega : (entryBody e).length < 2 ^ 31)]
  simp only [readBytes_exact, exceptBind_ok, parseRecordBody_entryBody e h,
    exceptBind_as_map]

theorem encodeRecordsPure_cons (e : KeytabEntry) (es : List KeytabEntry) :
    encodeRecordsPure (e :: es) = encodeRecord e ++ encodeRecordsPure es := rfl

theorem length_le_encodeRecordsPure (es : List KeytabEntry) :
    es.length ≤ (encodeRecordsPure es).length := by
  induction es with
  | nil => simp [encodeRecordsPure]
  | cons e es ih =>
      rw [encodeRecordsPure_cons]
      simp only [List.length_cons, List.length_append, encodeRecord, u32be]
      simp at ih ⊢
      omega

theorem validEntries_cons (e : KeytabEntry) (es : List KeytabEntry)
    (h : validEntries (e :: es) = true) :
    validEntry e = true ∧ validEntries es = true := by
  simpa [validEntries] using h

theorem decodeRecords_encPure (es : List KeytabEntry) (suffix : Bytes) (f : Nat)
    (h : validEntries es = true) :
    decodeRecords (es.length + f) (encodeRecordsPure es ++ suffix) =
      (decodeRecords f suffix).map (fun r => es ++ r) := by
  induction es with
  | nil =>
      simp only [encodeRecordsPure, List.foldr_nil, List.nil_append, List.length_nil,
        Nat.zero_add]
      cases decodeRecords f suffix <;> simp [Except.map]
  | cons e es ih =>
      obtain ⟨hv, hvs⟩ := validEntries_cons e es h
      rw [encodeRecordsPure_cons, List.append_assoc]
      have hlen : (e :: es).length + f = (es.length + f) + 1 := by
        simp [List.length_cons]; omega
      rw [hlen, decodeRecords_record _ _ _ hv, ih hvs]
      cases decodeRecords f suffix <;> simp [Except.map]

/-! ### Encoder success and failure lemmas. -/

theorem checkEntry_ok_of_bounds (i : Nat) (e : KeytabEntry)
    (h1 : e.components.length ≤ 65535) (h2 : e.realm.length ≤ 65535)
    (h3 : ∀ c ∈ e.components, c.length ≤ 65535) (h4 : e.key.length ≤ 65535)
    (h7 : (entryBody e).length ≤ 2 ^ 31 - 1) :
    checkEntry i e = .ok () := by
  have hany : e.components.any (fun c => 65535 < c.length) = false := by
    rw [List.any_eq_false]
    intro c hc
    simpa using h3 c hc
  rw [checkEntry, if_neg (by omega), if_neg (by omega), if_neg (by simp [hany]),
    if_neg (by omega), if_neg (by omega)]

theorem checkEntry_ok (i : Nat) (e : KeytabEntry) (h : validEntry e = true) :
    checkEntry i e = .ok () := by
  obtain ⟨h1, h2, h3, h4, _, _, h7, _, _⟩ := (validEntry_iff e).mp h
  exact checkEntry_ok_of_bounds i e h1 h2 h3 h4 h7

theorem encodeRecordsGo_ok (es : List KeytabEntry) (i : Nat)
    (h : validEntries es = true) :
    encodeRecordsGo i es = .ok (encodeRecordsPure es) := by
  induction es generalizing i with
  | nil => rfl
  | cons e es ih =>
      obtain ⟨hv, hvs⟩ := validEntries_cons e es h
      simp only [encodeRecordsGo, checkEntry_ok i e hv, exceptBind_ok, ih (i + 1) hvs,
        encodeRecordsPure_cons]

theorem encodeKeytab_ok (es : List KeytabEntry) (h : validEntries es = true) :
    encodeKeytab es = .ok (5 :: 2 :: encodeRecordsPure es) := by
  simp [encodeKeytab, encodeRecordsGo_ok es 0 h, Except.map]

theorem decodeKeytab_cons (b0 b1 : Nat) (rest : Bytes) :
    decodeKeytab (b0 :: b1 :: rest) =
      if b0 = 5 ∧ b1 = 2 then decodeRecords rest.length rest
      else .error .unsupportedVersion := rfl

theorem checkEntry_error_of_oversized (i : Nat) (e : KeytabEntry)
    (h : 65535 < e.realm.length ∨ ∃ c ∈ e.components, 65535 < c.length) :
    ∃ err, checkEntry i e = .error err := by
  unfold checkEntry
  split_ifs with h1 h2 h3 h4 h5
  · exact ⟨_, rfl⟩
  · exact ⟨_, rfl⟩
  · exact ⟨_, rfl⟩
  · exact ⟨_, rfl⟩
  · exact ⟨_, rfl⟩
  · exfalso
    rcases h with hr | ⟨c, hc, hlen⟩
    · exact h2 hr
    · exact h3 (by rw [List.any_eq_true]; exact ⟨c, hc, by simpa using hlen⟩)

theorem encodeRecordsGo_error (es : List KeytabEntry) (i : Nat)
    (h : ∃ e ∈ es, 65535 < e.realm.length ∨ ∃ c ∈ e.components, 65535 < c.length) :
    ∃ err, encodeRecordsGo i es = .error err := by
  induction es generalizing i with
  | nil => simp at h
  | cons e es ih =>
      rcases h with ⟨e2, he2, hbad⟩
      rcases List.mem_cons.mp he2 with rfl | hmem
      · obtain ⟨err, herr⟩ := checkEntry_error_of_oversized i e2 hbad
        exact ⟨err, by simp only [encodeRecordsGo, herr, exceptBind_error]⟩
      · cases hce : checkEntry i e with
        | error err =>
            exact ⟨err, by simp only [encodeRecordsGo, hce, exceptBind_error]⟩
        | ok u =>
            obtain ⟨err, herr⟩ := ih (i + 1) ⟨e2, hmem, hbad⟩
            exact ⟨err, by
              simp only [encodeRecordsGo, hce, exceptBind_ok, herr, exceptBind_error]⟩

theorem encodeKeytab_error_head (e : KeytabEntry) (es : List KeytabEntry)
    (err : EncodingOverflowError) (h : checkEntry 0 e = .error err) :
    encodeKeytab (e :: es) = .error err := by
  simp only [encodeKeytab, encodeRecordsGo, h, exceptBind_error, Except.map]

/-! ### Claim theorems. -/

/-- Claim C2: encoding the empty entry list produces exactly the two header
bytes `0x05 0x02` and nothing else, and decoding those two bytes returns the
empty entry list. -/
theorem c2_empty_keytab :
    encodeKeytab [] = .ok [5, 2] ∧ decodeKeytab [5, 2] = .ok [] :=
  ⟨rfl, rfl⟩

/-- Claim C3: for every entry list whose length-prefixed fields fit their
16-bit limits (and whose remaining fields fit their wire widths), decoding
the bytes produced by encoding yields exactly the same entries, with the same
field values, in the same order. -/
theorem c3_roundtrip (es : List KeytabEntry) (h : validEntries es = true) :
    ∃ bs, encodeKeytab es = .ok bs ∧ decodeKeytab bs = .ok es := by
  refine ⟨5 :: 2 :: encodeRecordsPure es, encodeKeytab_ok es h, ?_⟩
  rw [decodeKeytab_cons, if_pos ⟨rfl, rfl⟩]
  have hlen := length_le_encodeRecordsPure es
  obtain ⟨f, hf⟩ : ∃ f, (encodeRecordsPure es).length = es.length + f :=
    ⟨(encodeRecordsPure es).length - es.length, by omega⟩
  have hdec := decodeRecords_encPure es [] f h
  rw [List.append_nil] at hdec
  rw [hf, hdec, decodeRecords_nil]
  simp [Except.map]

set_option maxRecDepth 8192 in
/-- Claim C3 witness: a concrete two-entry list (distinct fields, one negative
timestamp, one multi-component principal) round-trips. -/
theorem c3_witness :
    validEntries [⟨[[112, 114]], [114, 108], [107, 101, 121], 3, 23, 0⟩,
        ⟨[[113], [122]], [109], [], 255, 17, -1⟩] = true ∧
    ∃ bs, encodeKeytab [⟨[[112, 114]], [114, 108], [107, 101, 121], 3, 23, 0⟩,
        ⟨[[113], [122]], [109], [], 255, 17, -1⟩] = .ok bs ∧
      decodeKeytab bs = .ok [⟨[[112, 114]], [114, 108], [107, 101, 121], 3, 23, 0⟩,
        ⟨[[113], [122]], [109], [], 255, 17, -1⟩] :=
  ⟨by decide, c3_roundtrip _ (by decide)⟩

/-- Claim C5: any entry list containing a realm or principal name component
longer than 65535 bytes makes Encode fail with an `EncodingOverflowError`;
since the result type is `Except`, the error case carries no output bytes at
all, so the encoding is all-or-nothing. -/
theorem c5_oversized_rejected (es : List KeytabEntry)
    (h : ∃ e ∈ es, 65535 < e.realm.length ∨ ∃ c ∈ e.components, 65535 < c.length) :
    ∃ err : EncodingOverflowError, encodeKeytab es = .error err := by
  obtain ⟨err, herr⟩ := encodeRecordsGo_error es 0 h
  exact ⟨err, by simp [encodeKeytab, herr, Except.map]⟩

/-- Claim C5 witness: a single entry with a 65536-byte realm is rejected. -/
theorem c5_witness :
    ∃ err : EncodingOverflowError,
      encodeKeytab [⟨[[107]], List.replicate 65536 0, [1], 0, 23, 0⟩] = .error err :=
  c5_oversized_rejected _ ⟨⟨[[107]], List.replicate 65536 0, [1], 0, 23, 0⟩,
    List.mem_singleton.mpr rfl, Or.inl (by simp only [List.length_replicate]; omega)⟩

/-- Claim C6: Decode returns a `FormatError` value (it is a total function, so
it can neither panic nor silently truncate) on a buffer shorter than 2 bytes,
on a header other than the supported `(5, 2)` pair, and on a record whose
declared length exceeds the remaining buffer (stated after any prefix of
well-formed records). -/
theorem c6_corrupt_rejected :
    (∀ bs : Bytes, bs.length < 2 → ∃ err, decodeKeytab bs = .error err) ∧
    (∀ b0 b1 : Nat, ∀ rest : Bytes, ¬(b0 = 5 ∧ b1 = 2) →
      ∃ err, decodeKeytab (b0 :: b1 :: rest) = .error err) ∧
    (∀ es : List KeytabEntry, ∀ L : Nat, ∀ tail : Bytes,
      validEntries es = true → L < 2 ^ 31 → tail.length < L →
      ∃ err, decodeKeytab (5 :: 2 :: (encodeRecordsPure es ++ (u32be L ++ tail))) =
        .error err) := by
  refine ⟨?_, ?_, ?_⟩
  · intro bs hlen
    cases bs with
    | nil => exact ⟨.truncated, rfl⟩
    | cons b0 t =>
        cases t with
        | nil => exact ⟨.truncated, rfl⟩
        | cons b1 t2 =>
            exfalso
            simp only [List.length_cons] at hlen
            omega
  · intro b0 b1 rest hne
    exact ⟨.unsupportedVersion, by rw [decodeKeytab_cons, if_neg hne]⟩
  · intro es L tail hv hL htail
    refine ⟨.truncated, ?_⟩
    rw [decodeKeytab_cons, if_pos ⟨rfl, rfl⟩]
    have hlen := length_le_encodeRecordsPure es
    have hXlen : (encodeRecordsPure es ++ (u32be L ++ tail)).length =
        (encodeRecordsPure es).length + (4 + tail.length) := by
      simp only [List.length_append, u32be, List.length_cons, List.length_nil]
    obtain ⟨f, hf⟩ : ∃ f, (encodeRecordsPure es ++ (u32be L ++ tail)).length =
        es.length + (f + 1) :=
      ⟨(encodeRecordsPure es ++ (u32be L ++ tail)).length - es.length - 1, by omega⟩
    rw [hf, decodeRecords_encPure es (u32be L ++ tail) (f + 1) hv]
    rw [decodeRecords_u32be f L tail (by omega), if_pos hL]
    rw [show readBytes L tail = Except.error FormatError.truncated from by
      rw [readBytes, if_pos htail]]
    rfl

/-- Claim C6 witness: a 1-byte buffer, a wrong-header buffer, and a truncated
record (declared length 5, only 3 bytes remaining) are each rejected. -/
theorem c6_witness :
    (∃ err, decodeKeytab [5] = .error err) ∧
    (∃ err, decodeKeytab (4 :: 2 :: [0]) = .error err) ∧
    (∃ err, decodeKeytab (5 :: 2 :: (encodeRecordsPure [] ++ (u32be 5 ++ [1, 2, 3]))) =
      .error err) :=
  ⟨c6_corrupt_rejected.1 [5] (by decide),
   c6_corrupt_rejected.2.1 4 2 [0] (by decide),
   c6_corrupt_rejected.2.2 [] 5 [1, 2, 3] (by decide) (by decide) (by decide)⟩

/-- Claim C7: a record whose 4-byte signed length prefix is the negative value
`-N` (encoded in twos complement as `2^32 - N`) is skipped by advancing
exactly the `N` bytes that follow it, contributing no entry, while the
records before and after it decode normally. -/
theorem c7_negative_skip (es1 es2 : List KeytabEntry) (junk : Bytes) (N : Nat)
    (h1 : validEntries es1 = true) (h2 : validEntries es2 = true)
    (hj : junk.length = N) (hN1 : 1 ≤ N) (hN2 : N ≤ 2 ^ 31) :
    decodeKeytab (5 :: 2 :: (encodeRecordsPure es1 ++
        (u32be (2 ^ 32 - N) ++ (junk ++ encodeRecordsPure es2)))) =
      .ok (es1 ++ es2) := by
  rw [decodeKeytab_cons, if_pos ⟨rfl, rfl⟩]
  have hlen1 := length_le_encodeRecordsPure es1
  have hlen2 := length_le_encodeRecordsPure es2
  have hXlen : (encodeRecordsPure es1 ++
      (u32be (2 ^ 32 - N) ++ (junk ++ encodeRecordsPure es2))).length =
      (encodeRecordsPure es1).length +
        (4 + (junk.length + (encodeRecordsPure es2).length)) := by
    simp only [List.length_append, u32be, List.length_cons, List.length_nil]
  obtain ⟨f, hf⟩ : ∃ f, (encodeRecordsPure es1 ++
      (u32be (2 ^ 32 - N) ++ (junk ++ encodeRecordsPure es2))).length =
      es1.length + (f + 1) :=
    ⟨(encodeRecordsPure es1 ++
        (u32be (2 ^ 32 - N) ++ (junk ++ encodeRecordsPure es2))).length -
      es1.length - 1, by omega⟩
  have hfge : es2.length ≤ f := by omega
  rw [hf, decodeRecords_encPure es1 _ (f + 1) h1]
  rw [decodeRecords_u32be f (2 ^ 32 - N) _ (by omega), if_neg (by omega)]
  rw [show (2 : Nat) ^ 32 - (2 ^ 32 - N) = N from by omega]
  rw [show readBytes N (junk ++ encodeRecordsPure es2) =
      .ok (junk, encodeRecordsPure es2) from by
    rw [← hj]; exact readBytes_exact junk _]
  rw [exceptBind_ok]
  obtain ⟨f2, hf2⟩ : ∃ f2, f = es2.length + f2 := ⟨f - es2.length, by omega⟩
  rw [hf2]
  show Except.map (fun r => es1 ++ r)
      (decodeRecords (es2.length + f2) (encodeRecordsPure es2)) =
    Except.ok (es1 ++ es2)
  have hdec := decodeRecords_encPure es2 [] f2 h2
  rw [List.append_nil] at hdec
  rw [hdec, decodeRecords_nil]
  simp [Except.map]

/-- Claim C1 counterexample: under the spec §4.1 wire layout, the fixture
entry does not encode to the bytes of the claimed golden vector, neither with
the raw `"key"` bytes of the entry stated by the claim nor with the 16 derived RC4-HMAC
key bytes the golden vector carries: the golden record contains a 4-byte
principal name-type field (value 1) that the §4.1 layout does not include. -/
theorem c1_counterexample :
    encodeKeytab [c1Entry] ≠ .ok c1GoldenBytes ∧
    encodeKeytab [c1EntryDerived] ≠ .ok c1GoldenBytes := by
  constructor
  · intro h
    rw [show encodeKeytab [c1Entry] = Except.ok
        [5, 2, 0, 0, 0, 40, 0, 1, 0, 9, 114, 101, 97, 108, 109, 46, 99, 111, 109,
         0, 9, 112, 114, 105, 110, 99, 105, 112, 97, 108, 0, 0, 0, 0, 0, 0, 23,
         0, 3, 107, 101, 121, 0, 0, 0, 0] from rfl] at h
    exact absurd (Except.ok.inj h) (by decide)
  · intro h
    rw [show encodeKeytab [c1EntryDerived] = Except.ok c1LayoutBytes from rfl] at h
    exact absurd (Except.ok.inj h) (by decide)

/-- Claim C1 (amended): the fixture entry, with its pre-derived 16-byte
RC4-HMAC key, encodes under the spec §4.1 layout to the 59-byte sequence
whose standard base64 encoding is
`BQIAAAA1AAEACXJlYWxtLmNvbQAJcHJpbmNpcGFsAAAAAAAAFwAQMdbP4NFq6TG3PFnX4MCJwAAAAAA=`. -/
theorem c1_amended :
    encodeKeytab [c1EntryDerived] = .ok c1LayoutBytes ∧
    base64String c1LayoutBytes =
      "BQIAAAA1AAEACXJlYWxtLmNvbQAJcHJpbmNpcGFsAAAAAAAAFwAQMdbP4NFq6TG3PFnX4MCJwAAAAAA=" :=
  ⟨rfl, by decide⟩

/-- Claim C4 counterexample: the codec does not accept a key of arbitrary
length: a 65536-byte key cannot be represented in the 16-bit key-length field
and makes Encode fail with an overflow error instead of being written. -/
theorem c4_counterexample :
    ∃ err : EncodingOverflowError,
      encodeKeytab [⟨[[112]], [114], List.replicate 65536 0, 0,
        AES128_CTS_HMAC_SHA1_96, 0⟩] = .error err := by
  refine ⟨⟨0, "key"⟩, ?_⟩
  have hck : checkEntry 0 (⟨[[112]], [114], List.replicate 65536 0, 0,
      AES128_CTS_HMAC_SHA1_96, 0⟩ : KeytabEntry) = .error ⟨0, "key"⟩ := by
    rw [checkEntry, if_neg (by simp), if_neg (by simp), if_neg (by simp),
      if_pos (by simp only [List.length_replicate]; omega)]
  exact encodeKeytab_error_head _ _ _ hck

/-- Claim C4 (amended): for every entry whose component count, realm,
components and key fit their 16-bit length fields and whose record body
length is representable (no constraint at all on the encryption type, the key
version, or how the key length relates to the encryption type), the overflow
guard passes, and the record body is exactly a prefix that depends on the key
only through its length, followed by the raw key bytes verbatim, followed by
the widened key version: the codec derives nothing from the key and never
validates its length against the encryption type. -/
theorem c4_amended (e : KeytabEntry) (i : Nat)
    (h1 : e.components.length ≤ 65535) (h2 : e.realm.length ≤ 65535)
    (h3 : ∀ c ∈ e.components, c.length ≤ 65535) (h4 : e.key.length ≤ 65535)
    (h7 : (entryBody e).length ≤ 2 ^ 31 - 1) :
    checkEntry i e = .ok () ∧
    entryBody e =
      (u16be e.components.length ++ lenPrefixed e.realm ++
        e.components.foldr (fun c acc => lenPrefixed c ++ acc) [] ++
        i32be e.timestamp ++ [e.keyVersion % 256] ++ u16be e.encryptionType ++
        u16be e.key.length) ++ e.key ++ u32be (e.keyVersion % 256) := by
  refine ⟨checkEntry_ok_of_bounds i e h1 h2 h3 h4 h7, ?_⟩
  simp [entryBody, lenPrefixed, List.append_assoc]

/-- Claim C4 witness: a 3-byte key with the (mismatched) type tag 9999 passes
the guard and appears verbatim on the wire. -/
theorem c4_witness :
    checkEntry 0 c4Entry = .ok () ∧
    entryBody c4Entry =
      (u16be c4Entry.components.length ++ lenPrefixed c4Entry.realm ++
        c4Entry.components.foldr (fun c acc => lenPrefixed c ++ acc) [] ++
        i32be c4Entry.timestamp ++ [c4Entry.keyVersion % 256] ++
        u16be c4Entry.encryptionType ++ u16be c4Entry.key.length) ++
        c4Entry.key ++ u32be (c4Entry.keyVersion % 256) :=
  c4_amended c4Entry 0 (by decide) (by decide) (by decide) (by decide) (by decide)

/-- Claim C7 witness: one record, then a skipped 3-byte slot with length
prefix `-3`, then another record, decodes to exactly the two entries. -/
theorem c7_witness :
    decodeKeytab (5 :: 2 :: (encodeRecordsPure [⟨[[112]], [114], [9], 0, 23, 5⟩] ++
        (u32be (2 ^ 32 - 3) ++ ([7, 7, 7] ++
          encodeRecordsPure [⟨[[113]], [115], [8], 1, 17, 6⟩])))) =
      .ok ([⟨[[112]], [114], [9], 0, 23, 5⟩] ++ [⟨[[113]], [115], [8], 1, 17, 6⟩]) :=
  c7_negative_skip [⟨[[112]], [114], [9], 0, 23, 5⟩] [⟨[[113]], [115], [8], 1, 17, 6⟩]
    [7, 7, 7] 3 (by decide) (by decide) (by decide) (by decide) (by decide)

theorem processEntries_nil (mkEntry : MkEntry) (parseTime : String → Except String Int)
    (formatTime : Int → String) (now : Int) :
    processEntries mkEntry parseTime formatTime now [] = .ok ([], []) := rfl

theorem processEntries_spec (mkEntry : MkEntry) (parseTime : String → Except String Int)
    (formatTime : Int → String) (now : Int) (es : List FileEntryModel)
    (entries2 : List FileEntryModel) (kes : List KeytabEntry)
    (hpe : processEntries mkEntry parseTime formatTime now es = .ok (entries2, kes)) :
    entries2.length = es.length ∧ kes.length = es.length ∧
      ∀ (i : Nat) (hi : i < es.length), (es.get ⟨i, hi⟩).timestamp = none →
        ∃ (hj : i < entries2.length) (hk : i < kes.length),
          (entries2.get ⟨i, hj⟩).timestamp = some (formatTime now) ∧
          Except.ok (kes.get ⟨i, hk⟩) =
            mkEntry (es.get ⟨i, hi⟩).principal (es.get ⟨i, hi⟩).realm
              (es.get ⟨i, hi⟩).key now (es.get ⟨i, hi⟩).keyVersion
              (es.get ⟨i, hi⟩).encryptionType := by
  induction es generalizing entries2 kes with
  | nil =>
      rw [processEntries_nil] at hpe
      simp only [Except.ok.injEq, Prod.mk.injEq] at hpe
      obtain ⟨h1, h2⟩ := hpe
      subst h1
      subst h2
      exact ⟨rfl, rfl, fun i hi => absurd hi (by simp)⟩
  | cons e es ih =>
      cases ht : e.timestamp with
      | none =>
          simp only [processEntries, ht, exceptBind_ok] at hpe
          cases hmk : mkEntry e.principal e.realm e.key now e.keyVersion
              e.encryptionType with
          | error d => simp [hmk, exceptBind_error] at hpe
          | ok ke =>
              simp only [hmk, exceptBind_ok] at hpe
              cases hrec : processEntries mkEntry parseTime formatTime now es with
              | error d => simp [hrec, exceptBind_error] at hpe
              | ok pr =>
                  obtain ⟨es2, kes2⟩ := pr
                  simp only [hrec, exceptBind_ok, Except.ok.injEq,
                    Prod.mk.injEq] at hpe
                  obtain ⟨h1, h2⟩ := hpe
                  subst h1
                  subst h2
                  obtain ⟨hl1, hl2, hrest⟩ := ih es2 kes2 hrec
                  refine ⟨by simp [hl1], by simp [hl2], ?_⟩
                  intro i hi hu
                  cases i with
                  | zero =>
                      refine ⟨by simp, by simp, rfl, ?_⟩
                      simpa using hmk.symm
                  | succ n =>
                      have hn : n < es.length := by
                        simp only [List.length_cons] at hi
                        omega
                      have hu2 : (es.get ⟨n, hn⟩).timestamp = none := by
                        simpa using hu
                      obtain ⟨hj, hk, hts, hmk2⟩ := hrest n hn hu2
                      refine ⟨by simp only [List.length_cons]; omega,
                        by simp only [List.length_cons]; omega, ?_, ?_⟩
                      · simpa using hts
                      · simpa using hmk2
      | some s =>
          simp only [processEntries, ht] at hpe
          cases hps : parseTime s with
          | error d => simp [hps, Except.map, exceptBind_error] at hpe
          | ok t =>
              simp only [hps, Except.map, exceptBind_ok] at hpe
              cases hmk : mkEntry e.principal e.realm e.key t e.keyVersion
                  e.encryptionType with
              | error d => simp [hmk, exceptBind_error] at hpe
              | ok ke =>
                  simp only [hmk, exceptBind_ok] at hpe
                  cases hrec : processEntries mkEntry parseTime formatTime now es with
                  | error d => simp [hrec, exceptBind_error] at hpe
                  | ok pr =>
                      obtain ⟨es2, kes2⟩ := pr
                      simp only [hrec, exceptBind_ok, Except.ok.injEq,
                        Prod.mk.injEq] at hpe
                      obtain ⟨h1, h2⟩ := hpe
                      subst h1
                      subst h2
                      obtain ⟨hl1, hl2, hrest⟩ := ih es2 kes2 hrec
                      refine ⟨by simp [hl1], by simp [hl2], ?_⟩
                      intro i hi hu
                      cases i with
                      | zero =>
                          exfalso
                          have : e.timestamp = none := by simpa using hu
                          rw [ht] at this
                          exact Option.noConfusion this
                      | succ n =>
                          have hn : n < es.length := by
                            simp only [List.length_cons] at hi
                            omega
                          have hu2 : (es.get ⟨n, hn⟩).timestamp = none := by
                            simpa using hu
                          obtain ⟨hj, hk, hts, hmk2⟩ := hrest n hn hu2
                          refine ⟨by simp only [List.length_cons]; omega,
                            by simp only [List.length_cons]; omega, ?_, ?_⟩
                          · simpa using hts
                          · simpa using hmk2

/-- Claim C8: whenever Create saves state, the saved `content_base64` is the
standard base64 encoding of the marshalled keytab bytes and the saved `id` is
the lowercase hexadecimal SHA-256 digest of those same raw bytes. -/
theorem c8_content_and_id (mkEntry : MkEntry) (parseTime : String → Except String Int)
    (formatTime : Int → String) (now : Int) (plan : Except String FileResourceModel)
    (st : FileResourceModel)
    (h : (create mkEntry parseTime formatTime now plan).state = some st) :
    ∃ data entries2 ktEntries bs,
      plan = .ok data ∧
      processEntries mkEntry parseTime formatTime now data.entries =
        .ok (entries2, ktEntries) ∧
      encodeKeytab ktEntries = .ok bs ∧
      st.contentBase64 = some (base64String bs) ∧
      st.id = some (hexLower (sha256 bs)) := by
  cases plan with
  | error d => simp [create] at h
  | ok data =>
      cases hpe : processEntries mkEntry parseTime formatTime now data.entries with
      | error d => simp [create, hpe] at h
      | ok pr =>
          obtain ⟨entries2, ktEntries⟩ := pr
          cases henc : encodeKeytab ktEntries with
          | error err => simp [create, hpe, henc] at h
          | ok bs =>
              refine ⟨data, entries2, ktEntries, bs, rfl, hpe, henc, ?_, ?_⟩
              · simp only [create, hpe, henc, Option.some.injEq] at h
                rw [← h]
              · simp only [create, hpe, henc, Option.some.injEq] at h
                rw [← h]

/-- Claim C8 witness: a one-entry plan saves state whose attributes are the
base64 and hex-SHA-256 of the marshalled bytes. -/
theorem c8_witness :
    ∃ data entries2 ktEntries bs,
      (Except.ok wPlanModel : Except String FileResourceModel) = .ok data ∧
      processEntries wMkEntry wParseTime wFormatTime 42 data.entries =
        .ok (entries2, ktEntries) ∧
      encodeKeytab ktEntries = .ok bs ∧
      wCreateState.contentBase64 = some (base64String bs) ∧
      wCreateState.id = some (hexLower (sha256 bs)) :=
  c8_content_and_id wMkEntry wParseTime wFormatTime 42 (.ok wPlanModel)
    wCreateState rfl

/-- Claim C9: Create is atomic with respect to state: it saves state exactly
when no step failed, so a failure of any step (reading the plan, resolving a
timestamp, adding an entry, marshalling) leaves an error diagnostic and no
state at all. -/
theorem c9_atomic (mkEntry : MkEntry) (parseTime : String → Except String Int)
    (formatTime : Int → String) (now : Int)
    (plan : Except String FileResourceModel) :
    (create mkEntry parseTime formatTime now plan).state = none ↔
      (create mkEntry parseTime formatTime now plan).errors ≠ [] := by
  cases plan with
  | error d => simp [create]
  | ok data =>
      cases hpe : processEntries mkEntry parseTime formatTime now data.entries with
      | error d => simp [create, hpe]
      | ok pr =>
          obtain ⟨entries2, ktEntries⟩ := pr
          cases henc : encodeKeytab ktEntries with
          | error err => simp [create, hpe, henc]
          | ok bs => simp [create, hpe, henc]

/-- Claim C9 witness: at a concrete failing input (the plan itself fails to
read), no state is saved and an error diagnostic is present. -/
theorem c9_witness :
    (create wMkEntry wParseTime wFormatTime 42
        (.error ("unable to read plan"))).state = none ↔
      (create wMkEntry wParseTime wFormatTime 42
        (.error ("unable to read plan"))).errors ≠ [] :=
  c9_atomic wMkEntry wParseTime wFormatTime 42 (.error ("unable to read plan"))

/-- Claim C10: within one Create call there is a single `now` value captured
before the entry loop: every entry whose planned timestamp is unknown has the
identical value `formatTime now` written back into its timestamp attribute in
the saved state, and its keytab entry is built by passing exactly `now` as the
timestamp. -/
theorem c10_single_now (mkEntry : MkEntry) (parseTime : String → Except String Int)
    (formatTime : Int → String) (now : Int) (data : FileResourceModel)
    (st : FileResourceModel)
    (h : (create mkEntry parseTime formatTime now (.ok data)).state = some st)
    (i : Nat) (hi : i < data.entries.length)
    (hu : (data.entries.get ⟨i, hi⟩).timestamp = none) :
    ∃ hj : i < st.entries.length,
      (st.entries.get ⟨i, hj⟩).timestamp = some (formatTime now) ∧
      ∃ ktEntries : List KeytabEntry,
        (∃ entries2, processEntries mkEntry parseTime formatTime now data.entries =
          .ok (entries2, ktEntries)) ∧
        ∃ hk : i < ktEntries.length,
          Except.ok (ktEntries.get ⟨i, hk⟩) =
            mkEntry (data.entries.get ⟨i, hi⟩).principal
              (data.entries.get ⟨i, hi⟩).realm (data.entries.get ⟨i, hi⟩).key
              now (data.entries.get ⟨i, hi⟩).keyVersion
              (data.entries.get ⟨i, hi⟩).encryptionType := by
  cases hpe : processEntries mkEntry parseTime formatTime now data.entries with
  | error d => simp [create, hpe] at h
  | ok pr =>
      obtain ⟨entries2, ktEntries⟩ := pr
      cases henc : encodeKeytab ktEntries with
      | error err => simp [create, hpe, henc] at h
      | ok bs =>
          simp only [create, hpe, henc, Option.some.injEq] at h
          subst h
          obtain ⟨hl1, hl2, hrest⟩ :=
            processEntries_spec mkEntry parseTime formatTime now data.entries
              entries2 ktEntries hpe
          obtain ⟨hj, hk, hts, hmk⟩ := hrest i hi hu
          exact ⟨hj, hts, ktEntries, ⟨entries2, rfl⟩, hk, hmk⟩

/-- Claim C10 witness: the concrete plan entry with unknown timestamp gets
`formatTime 42` written back and its keytab entry built with timestamp 42. -/
theorem c10_witness :
    (wPlanModel.entries.get ⟨0, by decide⟩).timestamp = none ∧
    ∃ hj : 0 < wCreateState.entries.length,
      (wCreateState.entries.get ⟨0, hj⟩).timestamp = some (wFormatTime 42) ∧
      ∃ ktEntries : List KeytabEntry,
        (∃ entries2, processEntries wMkEntry wParseTime wFormatTime 42
          wPlanModel.entries = .ok (entries2, ktEntries)) ∧
        ∃ hk : 0 < ktEntries.length,
          Except.ok (ktEntries.get ⟨0, hk⟩) =
            wMkEntry (wPlanModel.entries.get ⟨0, by decide⟩).principal
              (wPlanModel.entries.get ⟨0, by decide⟩).realm
              (wPlanModel.entries.get ⟨0, by decide⟩).key 42
              (wPlanModel.entries.get ⟨0, by decide⟩).keyVersion
              (wPlanModel.entries.get ⟨0, by decide⟩).encryptionType :=
  ⟨rfl, c10_single_now wMkEntry wParseTime wFormatTime 42 wPlanModel wCreateState
    rfl 0 (by decide) rfl⟩

end Keytab
